import Mathlib

/-!
Shallow embedding of the ragify document-indexing pipeline
(src/lib/chunking.py, src/lib/embedding.py, src/lib/text_cleaning.py,
src/lib/qdrant_operations.py, src/ragify.py) and proofs about it.

External collaborators (the tiktoken tokenizer, the Ollama embedding
provider, the Qdrant store, file extraction) are modelled as parameters:
the tokenizer as a function `tok : String → Nat`, network call outcomes
as oracle values.  All machine integers involved are Python arbitrary
precision integers, so `Nat`/`Int` model them exactly.
-/

namespace Ragify

/-- A chunk dictionary as used by chunking.py and embedding.py.
Only the keys read or written by the embedded functions are modelled:
`text`, `token_count` (absent = `none`), `semantic_block_index`,
`chunk_index`, `chunking_method`. -/
structure Chunk where
  text : String
  token_count : Option Nat := none
  semantic_block_index : Nat := 0
  chunk_index : Nat := 0
  chunking_method : String := ""
  deriving DecidableEq, Repr

/-- Python `str.strip()`: remove leading and trailing whitespace
(modelled with `Char.isWhitespace`). -/
def pyStrip (s : String) : String :=
  String.mk (((s.data.dropWhile Char.isWhitespace).reverse.dropWhile
    Char.isWhitespace).reverse)

/-- Counts maximal whitespace-free runs; the Boolean records whether the
previous character was inside a word. -/
def wordCountAux : List Char → Bool → Nat
  | [], _ => 0
  | c :: rest, inWord =>
    if c.isWhitespace then wordCountAux rest false
    else (if inWord then 0 else 1) + wordCountAux rest true

/-- The word-based fallback of `count_tokens` (chunking.py line 36):
`len(text.split())`, i.e. the number of maximal whitespace-free runs. -/
def wordCount (s : String) : Nat :=
  wordCountAux s.data false

example : pyStrip "  ab c \n" = "ab c" := by decide
example : wordCount " ab  c\nd " = 3 := by decide

/-- The effective token count of a chunk as read by the Python code:
the cached `token_count` when present, otherwise `count_tokens(text)`
(the tokenizer `tok` is a parameter of the embedding). -/
def effTok (tok : String → Nat) (c : Chunk) : Nat :=
  c.token_count.getD (tok c.text)

/-- Writing the computed token count back into the chunk, as
`chunk['token_count'] = token_count` does on a cache miss. -/
def normChunk (tok : String → Nat) (c : Chunk) : Chunk :=
  { c with token_count := some (effTok tok c) }

/-- Total token count of a batch: `sum(token_count in batch)`. -/
def batchTok (tok : String → Nat) (b : List Chunk) : Nat :=
  (b.map (effTok tok)).sum

/-- Loop of `create_dynamic_batches` (embedding.py lines 59-82):
`cur` is the current batch (in order), `curTok` its running token sum. -/
def cdbGo (tok : String → Nat) (maxB budget : Nat) :
    List Chunk → List Chunk → Nat → List (List Chunk)
  | [], cur, _ => if cur = [] then [] else [cur]
  | c :: rest, cur, curTok =>
    let tc := effTok tok c
    let c2 := normChunk tok c
    let wouldExceedTokens := curTok + tc > budget
    let wouldExceedSize := cur.length ≥ maxB
    if cur ≠ [] ∧ (wouldExceedTokens ∨ wouldExceedSize) then
      cur :: cdbGo tok maxB budget rest [c2] tc
    else
      cdbGo tok maxB budget rest (cur ++ [c2]) (curTok + tc)

/-- The dynamic batcher `create_dynamic_batches` (embedding.py lines 28-89). -/
def create_dynamic_batches (tok : String → Nat) (maxB budget : Nat)
    (chunks : List Chunk) : List (List Chunk) :=
  cdbGo tok maxB budget chunks [] 0

example :
    create_dynamic_batches wordCount 20 1800
      [{ text := "x", token_count := some 2000 }] =
      [[{ text := "x", token_count := some 2000 }]] := by decide

example :
    create_dynamic_batches wordCount 2 100
      [{ text := "a", token_count := some 60 },
       { text := "b", token_count := some 60 },
       { text := "c", token_count := some 10 }] =
      [[{ text := "a", token_count := some 60 }],
       [{ text := "b", token_count := some 60 },
        { text := "c", token_count := some 10 }]] := by decide

/-- Python slice index resolution for `s[a:b]` on a string of length `n`:
a negative index counts from the end (clamped below at 0), a
non-negative index is clamped above at `n`. -/
def pySliceIdx (n : Nat) (i : Int) : Nat :=
  if i < 0 then ((n : Int) + i).toNat
  else if i.toNat ≤ n then i.toNat else n

/-- Python string slice `s[a:b]` with arbitrary integer bounds. -/
def pySlice (s : String) (a b : Int) : String :=
  let n := s.length
  let a2 := pySliceIdx n a
  let b2 := pySliceIdx n b
  String.mk ((s.data.drop a2).take (b2 - a2))

example : pySlice "hello" 1 3 = "el" := by decide
example : pySlice "hello" (-3) 10 = "llo" := by decide
example : pySlice "hello" 3 1 = "" := by decide
example : pySlice "hello" (-9) 2 = "he" := by decide

/-- Window end of one `_fallback_chunk` iteration:
`end = min(start + target_chars, len(block))`. -/
def fbWindowEnd (block : String) (start : Int) (targetChars : Nat) : Int :=
  if start + (targetChars : Int) ≤ (block.length : Int)
  then start + (targetChars : Int) else (block.length : Int)

/-- Window text of one `_fallback_chunk` iteration:
`chunk_text = block[start:end]`. -/
def fbWindow (block : String) (start : Int) (targetChars : Nat) : String :=
  pySlice block start (fbWindowEnd block start targetChars)

/-- The chunk record appended by `_fallback_chunk` for one kept window. -/
def fbChunk (tok : String → Nat) (block : String)
    (blockIdx : Nat) (start : Int) (targetChars chunkIdx : Nat) : Chunk :=
  { text := fbWindow block start targetChars,
    semantic_block_index := blockIdx, chunk_index := chunkIdx,
    token_count := some (tok (fbWindow block start targetChars)),
    chunking_method := "fallback_simple" }

/-- One `while start < len(block)` loop of `_fallback_chunk`
(chunking.py lines 192-210), modelled with explicit fuel since the
Python loop need not terminate; `none` means the fuel ran out with the
loop still running.  `start` is an `Int`: Python subtraction can drive
it negative. -/
def fbGo (tok : String → Nat) (block : String) (blockIdx : Nat)
    (targetChars overlapChars : Nat) :
    Nat → Int → Nat → List Chunk → Option (List Chunk)
  | 0, start, _, acc =>
    if start < (block.length : Int) then none else some acc
  | fuel + 1, start, chunkIdx, acc =>
    if start < (block.length : Int) then
      let keep := pyStrip (fbWindow block start targetChars) ≠ ""
      let acc2 := if keep then
          acc ++ [fbChunk tok block blockIdx start targetChars chunkIdx]
        else acc
      let chunkIdx2 := if keep then chunkIdx + 1 else chunkIdx
      let start2 := fbWindowEnd block start targetChars - (overlapChars : Int)
      if start2 ≥ (block.length : Int) - (overlapChars : Int) then some acc2
      else fbGo tok block blockIdx targetChars overlapChars fuel start2 chunkIdx2 acc2
    else some acc

/-- Iteration of `_fallback_chunk` over the enumerated block list. -/
def fbBlocks (tok : String → Nat) (fuel targetChars overlapChars : Nat) :
    List (Nat × String) → Option (List Chunk)
  | [] => some []
  | (i, blk) :: rest => do
    let cs ← fbGo tok blk i targetChars overlapChars fuel 0 0 []
    let rest2 ← fbBlocks tok fuel targetChars overlapChars rest
    pure (cs ++ rest2)

/-- The fallback splitter `_fallback_chunk` (chunking.py lines 175-212),
with `target_chars = target_tokens * 4` and
`overlap_chars = overlap_tokens * 4`; fuel-indexed, `none` when the
Python loop has not finished within the fuel. -/
def fallback_chunk (tok : String → Nat) (fuel : Nat) (blocks : List String)
    (target_tokens overlap_tokens : Nat) : Option (List Chunk) :=
  fbBlocks tok fuel (target_tokens * 4) (overlap_tokens * 4) blocks.enum

/-- Shape of every chunk emitted by the fallback splitter: a computed
token count and the tag `"fallback_simple"`. -/
def fbOut (c : Chunk) : Prop :=
  c.token_count.isSome ∧ c.chunking_method = "fallback_simple"

example :
    fallback_chunk wordCount 5 ["ab cd"] 1 0 =
      some [{ text := "ab c", semantic_block_index := 0, chunk_index := 0,
              token_count := some 2, chunking_method := "fallback_simple" },
            { text := "d", semantic_block_index := 0, chunk_index := 1,
              token_count := some 1, chunking_method := "fallback_simple" }] := by
  decide

/-- The chunk filter `filter_chunks` (chunking.py lines 295-337): drop
chunks below `min_tokens`, re-split chunks above `max_tokens` via the
fallback splitter at half the max budget with overlap 50, keep only
sub-chunks within `max_tokens`.  Fuel-indexed through the fallback
splitter call. -/
def filter_chunks (tok : String → Nat) (fuel : Nat) (minTokens maxTokens : Nat) :
    List Chunk → Option (List Chunk)
  | [] => some []
  | c :: rest =>
    let tc := effTok tok c
    if tc < minTokens then filter_chunks tok fuel minTokens maxTokens rest
    else if tc > maxTokens then do
      let subs ← fallback_chunk tok fuel [c.text] (maxTokens / 2) 50
      let kept := subs.filter (fun s => effTok tok s ≤ maxTokens)
      let rest2 ← filter_chunks tok fuel minTokens maxTokens rest
      pure (kept ++ rest2)
    else do
      let rest2 ← filter_chunks tok fuel minTokens maxTokens rest
      pure (c :: rest2)

example :
    filter_chunks wordCount 4 2 4
      [{ text := "u v w", token_count := some 3 },
       { text := "tiny", token_count := some 1 }] =
      some [{ text := "u v w", token_count := some 3 }] := by decide

/-- First pass of `batch_embed_chunks` (embedding.py lines 340-359):
skip empty texts, cache token counts, and on an oversized chunk run
`from .chunking import semchunk_text` — an import of a name that
chunking.py does not define, so Python raises `ImportError` at that
point.  The raise is modelled as `Except.error`. -/
def firstPassValidate (tok : String → Nat) (maxTokens : Nat) :
    List Chunk → Except String (List Chunk)
  | [] => .ok []
  | c :: rest =>
    if pyStrip c.text = "" then firstPassValidate tok maxTokens rest
    else
      let tc := effTok tok c
      let c2 := normChunk tok c
      if tc > maxTokens then
        .error "ImportError: cannot import name semchunk_text from lib.chunking"
      else do
        let rest2 ← firstPassValidate tok maxTokens rest
        pure (c2 :: rest2)

example :
    firstPassValidate wordCount 2048
      [{ text := "ok", token_count := some 7 }, { text := "  " }] =
      .ok [{ text := "ok", token_count := some 7 }] := by rfl

/-- The quality gate `validate_text_quality` (text_cleaning.py lines
85-110): reject when the stripped length is below `min_length`, the
lowercased text has fewer than 10 distinct characters, or the text has
fewer than 10 words. -/
def validate_text_quality (text : String) (min_length : Nat) : Bool :=
  if text = "" ∨ (pyStrip text).length < min_length then false
  else if (String.mk (text.data.map Char.toLower)).data.dedup.length < 10 then false
  else if wordCount text < 10 then false
  else true

example : validate_text_quality "" 100 = false := by decide

/-- A concrete cleaned text passing the quality gate at threshold 100,
used by witnesses below. -/
def goodText : String :=
  "abcdefghijklmnopqrstuvwxyz one two three four five six seven eight nine ten eleven twelve thirteen!!"

set_option maxRecDepth 8000 in
example : validate_text_quality goodText 100 = true := by decide

set_option maxRecDepth 8000 in
example :
    validate_text_quality
      "abcdefghijklmnopqrstuvwxyz one two three four five six seven eight nine ten eleven twelve thirteen!"
      100 = false := by decide

set_option maxRecDepth 8000 in
example :
    validate_text_quality
      "abcdefghijklmnopqrstuvwxyz one two three four five six seven eight nine ten eleven twelve thirteen!!"
      100 = true := by decide

/-- Outcome of one HTTP PUT to the vector store, as distinguished by the
handlers of `upload_points` (qdrant_operations.py lines 95-124). -/
inductive ReqOutcome where
  | success
  | http429
  | httpOther
  | connErr
  | otherExc
  deriving DecidableEq, Repr

/-- Retry loop of `upload_points`: `attempt` counts issued requests so
far; the oracle gives the outcome of each attempt.  Returns the Boolean
result together with the total number of HTTP requests issued. -/
def uploadLoop (oracle : Nat → ReqOutcome) (retries : Nat) :
    Nat → Nat → Bool × Nat
  | issued, 0 => (false, issued)
  | issued, remaining + 1 =>
    match oracle issued with
    | .success => (true, issued + 1)
    | .http429 => uploadLoop oracle retries (issued + 1) remaining
    | .httpOther => (false, issued + 1)
    | .connErr => uploadLoop oracle retries (issued + 1) remaining
    | .otherExc => (false, issued + 1)

/-- The batch uploader `upload_points` (qdrant_operations.py lines
66-127): an empty point list returns `True` at once; otherwise up to
`retries` PUT requests are issued.  The point payloads, collection name
and timeout do not influence the modelled control flow but are kept as
arguments mirroring the source signature. -/
def upload_points (α : Type) (oracle : Nat → ReqOutcome)
    (points : List α) (collection_name : Option String) (timeout : Nat)
    (retries : Nat) : Bool × Nat :=
  if points.isEmpty then (true, 0)
  else uploadLoop oracle retries 0 retries

example :
    upload_points Nat (fun _ => .connErr) [1, 2] none 60 3 = (false, 3) := by
  decide
example :
    upload_points Nat (fun n => if n = 0 then .http429 else .success) [1]
      (some "documentation") 60 3 = (true, 2) := by decide

/-- The run statistics object `PipelineStats` (ragify.py lines 60-82);
the start timestamp is irrelevant to the claims and omitted. -/
structure PipelineStats where
  total_files : Nat
  processed_files : Nat
  skipped_unchanged : Nat
  failed_files : Nat
  total_chunks : Nat
  total_bytes : Nat
  failed_list : List (String × String)
  deriving DecidableEq, Repr

/-- The `PipelineStats.__init__` zero state. -/
def initStats : PipelineStats :=
  { total_files := 0, processed_files := 0, skipped_unchanged := 0,
    failed_files := 0, total_chunks := 0, total_bytes := 0, failed_list := [] }

/-- The paired mutation `failed_files += 1` and
`failed_list.append((path, reason))` used throughout ragify.py. -/
def recordFailure (st : PipelineStats) (path reason : String) : PipelineStats :=
  { st with failed_files := st.failed_files + 1,
            failed_list := st.failed_list ++ [(path, reason)] }

/-- The statistics invariant of C10: the failed-files counter equals the
length of the failure list. -/
def statsInvariant (st : PipelineStats) : Prop :=
  st.failed_files = st.failed_list.length

/-- External-collaborator responses consumed by `process_file` for one
file: its byte size, the deduplication lookup, the extracted text (empty
means no text), the cleaned text handed to the quality gate, the result
of `chunk_by_type` (an `Except` since `semantic_chunk_text` raises
`ChunkingError` on a splitter fault), the result of
`batch_embed_chunks` (an `Except` since its oversized-chunk branch
raises `ImportError`), and whether every upload batch succeeded. -/
structure FileOutcome where
  size : Nat
  alreadyIndexed : Bool
  extractedText : String
  cleaned : String
  chunksResult : Except String (List Chunk)
  embedResult : Except String (List Chunk)
  uploadOk : Bool

/-- Stage chain of `process_file` after the `total_bytes` accumulation:
`st1` is the statistics object as already mutated by the size
accumulator. -/
def processStages (maxFileSize : Nat) (path : String) (f : FileOutcome)
    (st1 : PipelineStats) : PipelineStats × Option String :=
  if f.size > maxFileSize then (st1, none)
  else if f.alreadyIndexed then
    ({ st1 with skipped_unchanged := st1.skipped_unchanged + 1 }, none)
  else if f.extractedText = "" then
    (recordFailure st1 path "No text extracted", none)
  else if ¬ validate_text_quality f.cleaned 100 then
    (recordFailure st1 path "Low text quality", none)
  else
    match f.chunksResult with
    | .error e => (st1, some e)
    | .ok chunks =>
      if chunks = [] then (recordFailure st1 path "Chunking failed", none)
      else
        match f.embedResult with
        | .error e => (st1, some e)
        | .ok embedded =>
          if embedded = [] then (recordFailure st1 path "Embedding failed", none)
          else if f.uploadOk then
            ({ st1 with processed_files := st1.processed_files + 1,
                        total_chunks := st1.total_chunks + embedded.length }, none)
          else (recordFailure st1 path "Upload failed", none)

/-- The per-file state machine `RagifyPipeline.process_file`
(ragify.py lines 263-368).  The result pairs the statistics object
after the call with `some e` when the call raised exception `e` (the
statistics mutations made before the raise are kept, as Python keeps
in-place mutations of `self.stats`). -/
def process_file (maxFileSize : Nat) (path : String) (f : FileOutcome)
    (st : PipelineStats) : PipelineStats × Option String :=
  processStages maxFileSize path f
    { st with total_bytes := st.total_bytes + f.size }

/-- One iteration of the `process_directory` loop (ragify.py lines
242-250): call `process_file` inside `try`, and turn a raised exception
into a failure record. -/
def processOne (maxFileSize : Nat) (st : PipelineStats)
    (pf : String × FileOutcome) : PipelineStats :=
  match process_file maxFileSize pf.1 pf.2 st with
  | (st2, none) => st2
  | (st2, some e) => recordFailure st2 pf.1 e

/-- The `for file_path in files` loop body of `process_directory`. -/
def runFiles (maxFileSize : Nat) (files : List (String × FileOutcome))
    (st : PipelineStats) : PipelineStats :=
  files.foldl (processOne maxFileSize) st

/-- A concrete file outcome whose chunking stage raises, used by
witnesses: the text passes the quality gate, then `chunk_by_type`
propagates a `ChunkingError` out of `process_file`. -/
def badFile : FileOutcome :=
  { size := 5, alreadyIndexed := false, extractedText := "t",
    cleaned := goodText, chunksResult := .error "ChunkingError: boom",
    embedResult := .ok [], uploadOk := true }

/-- A concrete oversized file outcome used by witnesses. -/
def hugeFile : FileOutcome :=
  { size := 200, alreadyIndexed := true, extractedText := "t",
    cleaned := "t", chunksResult := .ok [], embedResult := .ok [],
    uploadOk := true }

/-- The run loop `RagifyPipeline.process_directory` (ragify.py lines
214-261): set `total_files` to the scan count, then process every file
in order.  Report generation does not mutate the statistics. -/
def process_directory (maxFileSize : Nat)
    (files : List (String × FileOutcome)) (st : PipelineStats) :
    PipelineStats :=
  runFiles maxFileSize files { st with total_files := files.length }

example :
    process_file 10 "big.bin"
      { size := 11, alreadyIndexed := false, extractedText := "t",
        cleaned := "t", chunksResult := .ok [], embedResult := .ok [],
        uploadOk := true } initStats =
      ({ initStats with total_bytes := 11 }, none) := by decide

set_option maxRecDepth 8000 in
example :
    processOne 100 initStats
      ("doc.md",
       { size := 5, alreadyIndexed := false, extractedText := "t",
         cleaned := goodText, chunksResult := .error "ChunkingError: boom",
         embedResult := .ok [], uploadOk := true }) =
      recordFailure { initStats with total_bytes := 5 } "doc.md"
        "ChunkingError: boom" := by decide

/-! Lemmas about the dynamic batcher. -/

lemma effTok_normChunk (tok : String → Nat) (c : Chunk) :
    effTok tok (normChunk tok c) = effTok tok c := rfl

lemma batchTok_nil (tok : String → Nat) : batchTok tok [] = 0 := rfl

lemma batchTok_append_singleton (tok : String → Nat) (b : List Chunk) (c : Chunk) :
    batchTok tok (b ++ [c]) = batchTok tok b + effTok tok c := by
  simp [batchTok]

lemma normChunk_cached (tok : String → Nat) (c : Chunk)
    (h : c.token_count.isSome) : normChunk tok c = c := by
  obtain ⟨n, hn⟩ := Option.isSome_iff_exists.mp h
  cases c
  simp_all [normChunk, effTok]

lemma cdbGo_bounds (tok : String → Nat) (maxB budget : Nat)
    (hmax : 1 ≤ maxB) :
    ∀ (chunks cur : List Chunk) (curTok : Nat),
      (∀ c ∈ chunks, effTok tok c ≤ budget) →
      curTok = batchTok tok cur →
      batchTok tok cur ≤ budget →
      cur.length ≤ maxB →
      ∀ b ∈ cdbGo tok maxB budget chunks cur curTok,
        batchTok tok b ≤ budget ∧ b.length ≤ maxB := by
  intro chunks
  induction chunks with
  | nil =>
    intro cur curTok _ _ hbud hlen b hb
    simp only [cdbGo] at hb
    split at hb
    · simp at hb
    · simp at hb
      subst hb
      exact ⟨hbud, hlen⟩
  | cons c rest ih =>
    intro cur curTok hall heq hbud hlen b hb
    simp only [cdbGo] at hb
    split at hb
    case isTrue hcond =>
      rcases List.mem_cons.mp hb with hb | hb
      · subst hb; exact ⟨hbud, hlen⟩
      · refine ih [normChunk tok c] (effTok tok c)
          (fun x hx => hall x (List.mem_cons_of_mem _ hx)) ?_ ?_ ?_ b hb
        · simp [batchTok, effTok_normChunk]
        · simpa [batchTok, effTok_normChunk] using
            hall c (List.mem_cons_self _ _)
        · simpa using hmax
    case isFalse hcond =>
      refine ih (cur ++ [normChunk tok c]) (curTok + effTok tok c)
        (fun x hx => hall x (List.mem_cons_of_mem _ hx)) ?_ ?_ ?_ b hb
      · rw [batchTok_append_singleton, effTok_normChunk, heq]
      · rw [batchTok_append_singleton, effTok_normChunk, ← heq]
        rcases not_and_or.mp hcond with hcur | hor
        · have hcur2 : cur = [] := not_not.mp hcur
          subst hcur2
          simp only [batchTok_nil] at heq
          subst heq
          simpa using hall c (List.mem_cons_self _ _)
        · rcases not_or.mp hor with ⟨h1, _⟩
          omega
      · rcases not_and_or.mp hcond with hcur | hor
        · have hcur2 : cur = [] := not_not.mp hcur
          subst hcur2
          simpa using hmax
        · rcases not_or.mp hor with ⟨_, h2⟩
          simp only [List.length_append, List.length_singleton]
          omega

lemma cdbGo_join (tok : String → Nat) (maxB budget : Nat) :
    ∀ (chunks cur : List Chunk) (curTok : Nat),
      (cdbGo tok maxB budget chunks cur curTok).flatten =
        cur ++ chunks.map (normChunk tok) := by
  intro chunks
  induction chunks with
  | nil =>
    intro cur curTok
    simp only [cdbGo]
    split
    case isTrue h => simp [h]
    case isFalse h => simp
  | cons c rest ih =>
    intro cur curTok
    simp only [cdbGo]
    split
    case isTrue h => simp [List.flatten, ih]
    case isFalse h => simp [ih]

lemma cdbGo_batches_nonempty (tok : String → Nat) (maxB budget : Nat) :
    ∀ (chunks cur : List Chunk) (curTok : Nat),
      ∀ b ∈ cdbGo tok maxB budget chunks cur curTok, b ≠ [] := by
  intro chunks
  induction chunks with
  | nil =>
    intro cur curTok b hb
    simp only [cdbGo] at hb
    split at hb
    · simp at hb
    case isFalse h =>
      simp at hb
      subst hb
      exact h
  | cons c rest ih =>
    intro cur curTok b hb
    simp only [cdbGo] at hb
    split at hb
    case isTrue h =>
      rcases List.mem_cons.mp hb with hb | hb
      · subst hb; exact h.1
      · exact ih _ _ b hb
    case isFalse h => exact ih _ _ b hb

/-- C1.  The claim quantifies over every input list, but a single
fragment whose token count exceeds the budget is placed alone in a
batch whose token sum exceeds the budget: with budget 1800 and one
fragment of 2000 cached tokens, the unique batch sums to 2000. -/
theorem create_dynamic_batches_budget_cex :
    ¬ (∀ b ∈ create_dynamic_batches wordCount 20 1800
          [{ text := "x", token_count := some 2000 }],
        batchTok wordCount b ≤ 1800 ∧ b.length ≤ 20) := by
  decide

/-- C1 (amended).  Provided `max_batch_size ≥ 1` and every fragment's
token count is at most `token_budget`, every batch produced by
`create_dynamic_batches` has token sum at most `token_budget` and at
most `max_batch_size` fragments. -/
theorem create_dynamic_batches_respects_limits (tok : String → Nat)
    (maxB budget : Nat) (chunks : List Chunk)
    (hmax : 1 ≤ maxB)
    (hall : ∀ c ∈ chunks, effTok tok c ≤ budget) :
    ∀ b ∈ create_dynamic_batches tok maxB budget chunks,
      batchTok tok b ≤ budget ∧ b.length ≤ maxB :=
  cdbGo_bounds tok maxB budget hmax chunks [] 0 hall rfl
    (by simp [batchTok]) (by simp [hmax])

/-- C1 witness: the amended theorem applied to two fragments of 900 and
901 tokens against budget 1800 and count limit 20. -/
theorem create_dynamic_batches_respects_limits_witness :
    batchTok wordCount [{ text := "a", token_count := some 900 }] ≤ 1800 ∧
    [({ text := "a", token_count := some 900 } : Chunk)].length ≤ 20 :=
  create_dynamic_batches_respects_limits wordCount 20 1800
    [{ text := "a", token_count := some 900 },
     { text := "b", token_count := some 901 }]
    (by decide) (by decide)
    [{ text := "a", token_count := some 900 }] (by decide)

/-- C7.  For fragments that carry a cached token count (as every
fragment leaving the chunking stage does), the batches of
`create_dynamic_batches` concatenate, in order, to exactly the input
list — an ordered partition — and no batch is empty. -/
theorem create_dynamic_batches_partition (tok : String → Nat)
    (maxB budget : Nat) (chunks : List Chunk)
    (hcached : ∀ c ∈ chunks, c.token_count.isSome) :
    (create_dynamic_batches tok maxB budget chunks).flatten = chunks ∧
    ∀ b ∈ create_dynamic_batches tok maxB budget chunks, b ≠ [] := by
  constructor
  · rw [create_dynamic_batches, cdbGo_join]
    simp only [List.nil_append]
    calc chunks.map (normChunk tok) = chunks.map id := by
          exact List.map_congr_left fun c hc => normChunk_cached tok c (hcached c hc)
      _ = chunks := List.map_id chunks
  · exact cdbGo_batches_nonempty tok maxB budget chunks [] 0

/-- C7 witness: the partition theorem applied to a concrete two-fragment
input. -/
theorem create_dynamic_batches_partition_witness :
    (create_dynamic_batches wordCount 20 1800
        [{ text := "a", token_count := some 900 },
         { text := "b", token_count := some 901 }]).flatten =
      [{ text := "a", token_count := some 900 },
       { text := "b", token_count := some 901 }] ∧
    [({ text := "a", token_count := some 900 } : Chunk)] ≠ [] :=
  ⟨(create_dynamic_batches_partition wordCount 20 1800 _ (by decide)).1,
   (create_dynamic_batches_partition wordCount 20 1800
      [{ text := "a", token_count := some 900 },
       { text := "b", token_count := some 901 }] (by decide)).2
     [{ text := "a", token_count := some 900 }] (by decide)⟩

/-! Non-termination of the fallback splitter when the character overlap
equals the window: on the block `"aaaaaaaaaa"` with `target_tokens = 1`
and `overlap_tokens = 1` (window = overlap = 4 characters), `start`
returns to 0 after every iteration and the guard
`start >= len(block) - overlap_chars` never fires. -/

lemma fbGo_stuck_step (tok : String → Nat) (n chunkIdx : Nat)
    (acc : List Chunk) :
    fbGo tok "aaaaaaaaaa" 0 4 4 (n + 1) 0 chunkIdx acc =
      fbGo tok "aaaaaaaaaa" 0 4 4 n 0 (chunkIdx + 1)
        (acc ++ [{ text := "aaaa", semantic_block_index := 0,
                   chunk_index := chunkIdx, token_count := some (tok "aaaa"),
                   chunking_method := "fallback_simple" }]) := rfl

lemma fbGo_stuck (tok : String → Nat) :
    ∀ (fuel chunkIdx : Nat) (acc : List Chunk),
      fbGo tok "aaaaaaaaaa" 0 4 4 fuel 0 chunkIdx acc = none := by
  intro fuel
  induction fuel with
  | zero => intro chunkIdx acc; rfl
  | succ n ih =>
    intro chunkIdx acc
    rw [fbGo_stuck_step]
    exact ih _ _

/-- C4.  The fallback splitter `_fallback_chunk` does not terminate on
every input: with `target_tokens = 1`, `overlap_tokens = 1` (overlap
equal to the window) and the ten-character block `"aaaaaaaaaa"`, the
character-window loop revisits `start = 0` forever, so no amount of
fuel completes it — contradicting the claimed termination guard. -/
theorem fallback_chunk_diverges (tok : String → Nat) (fuel : Nat) :
    fallback_chunk tok fuel ["aaaaaaaaaa"] 1 1 = none := by
  show fbBlocks tok fuel 4 4 [(0, "aaaaaaaaaa")] = none
  simp [fbBlocks, fbGo_stuck tok fuel 0 []]

/-! Invariant of the fallback splitter's output: every produced chunk
carries a computed token count and the tag `"fallback_simple"`. -/

lemma fbGo_out (tok : String → Nat) (block : String) (blockIdx tC oC : Nat) :
    ∀ (fuel : Nat) (start : Int) (chunkIdx : Nat) (acc res : List Chunk),
      (∀ c ∈ acc, fbOut c) →
      fbGo tok block blockIdx tC oC fuel start chunkIdx acc = some res →
      ∀ c ∈ res, fbOut c := by
  intro fuel
  induction fuel with
  | zero =>
    intro start chunkIdx acc res hacc h
    simp only [fbGo] at h
    split at h
    · exact absurd h (by simp)
    · obtain rfl : acc = res := by simpa using h
      exact hacc
  | succ n ih =>
    intro start chunkIdx acc res hacc h
    rw [fbGo] at h
    split at h
    case isFalse =>
      obtain rfl : acc = res := by simpa using h
      exact hacc
    case isTrue =>
      simp only at h
      have hacc2 : ∀ c ∈ (if pyStrip (fbWindow block start tC) ≠ "" then
          acc ++ [fbChunk tok block blockIdx start tC chunkIdx] else acc),
          fbOut c := by
        split
        · intro c hc
          rcases List.mem_append.mp hc with hc | hc
          · exact hacc c hc
          · simp only [List.mem_singleton] at hc
            subst hc
            exact ⟨rfl, rfl⟩
        · exact hacc
      split at h
      · have h2 := Option.some.inj h
        subst h2
        exact hacc2
      · exact ih _ _ _ _ hacc2 h

lemma fbBlocks_out (tok : String → Nat) (fuel tC oC : Nat) :
    ∀ (blks : List (Nat × String)) (res : List Chunk),
      fbBlocks tok fuel tC oC blks = some res →
      ∀ c ∈ res, fbOut c := by
  intro blks
  induction blks with
  | nil =>
    intro res h c hc
    obtain rfl : ([] : List Chunk) = res := by simpa [fbBlocks] using h
    simp at hc
  | cons b rest ih =>
    intro res h c hc
    obtain ⟨i, blk⟩ := b
    simp only [fbBlocks, Option.bind_eq_bind, Option.bind_eq_some] at h
    obtain ⟨cs, hcs, h⟩ := h
    obtain ⟨rest2, hrest2, h⟩ := h
    obtain rfl : cs ++ rest2 = res := by simpa using h
    rcases List.mem_append.mp hc with hc | hc
    · exact fbGo_out tok blk i tC oC fuel 0 0 [] cs (by simp) hcs c hc
    · exact ih rest2 hrest2 c hc

lemma fallback_chunk_out (tok : String → Nat) (fuel : Nat)
    (blocks : List String) (tT oT : Nat) (res : List Chunk)
    (h : fallback_chunk tok fuel blocks tT oT = some res) :
    ∀ c ∈ res, fbOut c :=
  fbBlocks_out tok fuel (tT * 4) (oT * 4) blocks.enum res h

/-- C3 counterexample.  With `min_tokens = 2` and `max_tokens = 4`, a
chunk cached at 5 tokens whose 8-character text re-splits into a single
window counted at 1 token (the word-count tokenizer of count_tokens'
fallback) is returned with `token_count = 1 < min_tokens`. -/
theorem filter_chunks_min_bound_cex :
    filter_chunks wordCount 8 2 4
        [{ text := "aaaaaaaa", token_count := some 5 }] =
      some [{ text := "aaaaaaaa", semantic_block_index := 0,
              chunk_index := 0, token_count := some 1,
              chunking_method := "fallback_simple" }] ∧
    ¬ 2 ≤ effTok wordCount
        { text := "aaaaaaaa", semantic_block_index := 0, chunk_index := 0,
          token_count := some 1, chunking_method := "fallback_simple" } := by
  decide

/-- C3 (amended).  Every chunk returned by `filter_chunks` has token
count at most `max_tokens`; the lower bound `min_tokens` holds for every
chunk except possibly those produced by the fallback re-split of an
oversized chunk (tagged `"fallback_simple"`), which are only checked
against the upper bound. -/
theorem filter_chunks_token_bounds (tok : String → Nat) (fuel : Nat)
    (minT maxT : Nat) :
    ∀ (chunks res : List Chunk),
      filter_chunks tok fuel minT maxT chunks = some res →
      ∀ c ∈ res, effTok tok c ≤ maxT ∧
        (minT ≤ effTok tok c ∨ c.chunking_method = "fallback_simple") := by
  intro chunks
  induction chunks with
  | nil =>
    intro res h c hc
    obtain rfl : ([] : List Chunk) = res := by simpa [filter_chunks] using h
    simp at hc
  | cons x rest ih =>
    intro res h c hc
    simp only [filter_chunks] at h
    split at h
    · exact ih res h c hc
    · split at h
      case isTrue hgt =>
        simp only [Option.bind_eq_bind, Option.bind_eq_some] at h
        obtain ⟨subs, hsubs, h⟩ := h
        obtain ⟨rest2, hrest2, h⟩ := h
        obtain rfl : subs.filter (fun s => effTok tok s ≤ maxT) ++ rest2 = res := by
          simpa using h
        rcases List.mem_append.mp hc with hc | hc
        · have hmem := List.mem_filter.mp hc
          refine ⟨by simpa using hmem.2, Or.inr ?_⟩
          exact (fallback_chunk_out tok fuel [x.text] (maxT / 2) 50 subs
            hsubs c hmem.1).2
        · exact ih rest2 hrest2 c hc
      case isFalse hle =>
        simp only [Option.bind_eq_bind, Option.bind_eq_some] at h
        obtain ⟨rest2, hrest2, h⟩ := h
        obtain rfl : x :: rest2 = res := by simpa using h
        rcases List.mem_cons.mp hc with hc | hc
        · subst hc
          constructor
          · omega
          · left
            omega
        · exact ih rest2 hrest2 c hc

/-- C3 witness: the amended bounds at a concrete pass-through chunk. -/
theorem filter_chunks_token_bounds_witness :
    filter_chunks wordCount 1 2 4 [{ text := "u v w", token_count := some 3 }] =
      some [{ text := "u v w", token_count := some 3 }] ∧
    (effTok wordCount { text := "u v w", token_count := some 3 } ≤ 4 ∧
     (2 ≤ effTok wordCount { text := "u v w", token_count := some 3 } ∨
      Chunk.chunking_method { text := "u v w", token_count := some 3 } =
        "fallback_simple")) :=
  ⟨by decide,
   filter_chunks_token_bounds wordCount 1 2 4
     [{ text := "u v w", token_count := some 3 }]
     [{ text := "u v w", token_count := some 3 }] (by decide)
     { text := "u v w", token_count := some 3 } (by decide)⟩

/-- Helper for C2: `firstPassValidate` raises (returns `.error`) exactly
when some fragment has non-blank text and a token count above the hard
limit — the branch executing the impossible import
`from .chunking import semchunk_text`. -/
lemma firstPassValidate_error_iff (tok : String → Nat) (maxT : Nat) :
    ∀ chunks : List Chunk,
      (∃ e, firstPassValidate tok maxT chunks = .error e) ↔
      ∃ c ∈ chunks, pyStrip c.text ≠ "" ∧ maxT < effTok tok c := by
  intro chunks
  induction chunks with
  | nil => simp [firstPassValidate]
  | cons x rest ih =>
    simp only [firstPassValidate]
    split
    case isTrue hblank =>
      rw [ih]
      constructor
      · rintro ⟨c, hc, hprop⟩
        exact ⟨c, List.mem_cons_of_mem _ hc, hprop⟩
      · rintro ⟨c, hc, hprop⟩
        rcases List.mem_cons.mp hc with rfl | hc
        · exact absurd hblank hprop.1.elim
        · exact ⟨c, hc, hprop⟩
    case isFalse hblank =>
      split
      case isTrue hbig =>
        constructor
        · intro _
          exact ⟨x, List.mem_cons_self _ _, hblank, hbig⟩
        · intro _
          exact ⟨_, rfl⟩
      case isFalse hbig =>
        constructor
        · rintro ⟨e, he⟩
          rcases hr : firstPassValidate tok maxT rest with e2 | ok
          · obtain ⟨c, hc, hprop⟩ := ih.mp ⟨e2, hr⟩
            exact ⟨c, List.mem_cons_of_mem _ hc, hprop⟩
          · rw [hr] at he
            simp [Except.bind] at he
        · rintro ⟨c, hc, hprop⟩
          rcases List.mem_cons.mp hc with rfl | hc
          · exact absurd hprop.2 hbig
          · obtain ⟨e, he⟩ := ih.mpr ⟨c, hc, hprop⟩
            rw [he]
            exact ⟨e, rfl⟩

/-- C2.  An oversized fragment does not reach the fallback splitter:
the oversized branch of `batch_embed_chunks` executes
`from .chunking import semchunk_text`, importing a name that
lib/chunking.py does not define, so the call raises `ImportError`
instead of re-splitting.  Evaluated at a fragment cached at 2049 tokens
against the hard limit 2048. -/
theorem batch_embed_chunks_oversized_raises :
    firstPassValidate wordCount 2048
        [{ text := "a", token_count := some 2049 }] =
      .error "ImportError: cannot import name semchunk_text from lib.chunking" := by
  rfl

/-- C5 counterexample.  A file of 11 bytes against a 10-byte limit is
skipped with no failure record: the statistics keep `failed_files = 0`
and an empty failure list, and only `total_bytes` changes — the claim's
`Failed("too large")` accounting does not happen. -/
theorem process_file_too_large_not_recorded_cex :
    process_file 10 "big.bin"
        { size := 11, alreadyIndexed := false, extractedText := "t",
          cleaned := "t", chunksResult := .ok [], embedResult := .ok [],
          uploadOk := true } initStats =
      ({ initStats with total_bytes := 11 }, none) ∧
    ({ initStats with total_bytes := 11 } : PipelineStats).failed_files = 0 ∧
    ({ initStats with total_bytes := 11 } : PipelineStats).failed_list = [] := by
  decide

/-- C5 (amended).  A file whose size exceeds the configured maximum is
skipped before hashing: no later stage runs, no exception is raised,
and the statistics are unchanged except for the `total_bytes`
accumulator — in particular nothing is added to the failure count or
failure list. -/
theorem process_file_too_large_skips (maxFS : Nat) (path : String)
    (f : FileOutcome) (st : PipelineStats) (h : f.size > maxFS) :
    process_file maxFS path f st =
      ({ st with total_bytes := st.total_bytes + f.size }, none) := by
  unfold process_file processStages
  rw [if_pos h]

/-- C5 witness: the amended theorem at a concrete oversized file. -/
theorem process_file_too_large_skips_witness :
    process_file 10 "w.bin"
        { size := 12, alreadyIndexed := true, extractedText := "t",
          cleaned := "t", chunksResult := .error "ChunkingError: x",
          embedResult := .ok [], uploadOk := false } initStats =
      ({ initStats with total_bytes := 12 }, none) :=
  process_file_too_large_skips 10 "w.bin" _ initStats (by decide)

/-- C9.  Uploading an empty point list returns `True` at once and issues
zero requests to the vector store, for every oracle, collection name,
timeout and retry count. -/
theorem upload_points_empty_no_request (α : Type) (oracle : Nat → ReqOutcome)
    (coll : Option String) (timeout retries : Nat) :
    upload_points α oracle [] coll timeout retries = (true, 0) := rfl

/-- For a text already stripped of outer whitespace — as every output of
`clean_text` is, its last step being a trim — the quality gate at
threshold 100 rejects exactly on the three documented criteria. -/
lemma validate_false_iff (t : String) (h : pyStrip t = t) :
    validate_text_quality t 100 = false ↔
      (t.length < 100 ∨
       (String.mk (t.data.map Char.toLower)).data.dedup.length < 10 ∨
       wordCount t < 10) := by
  unfold validate_text_quality
  rw [h]
  split_ifs with h1 h2 h3
  · constructor
    · intro _
      rcases h1 with rfl | h1
      · exact Or.inl (by decide)
      · exact Or.inl h1
    · intro _
      rfl
  · exact ⟨fun _ => Or.inr (Or.inl h2), fun _ => rfl⟩
  · exact ⟨fun _ => Or.inr (Or.inr h3), fun _ => rfl⟩
  · constructor
    · intro habs
      exact absurd habs (by decide)
    · intro hr
      exfalso
      rcases hr with hr | hr | hr
      · exact h1 (Or.inr hr)
      · exact h2 hr
      · exact h3 hr

/-- C6.  For a file that reaches the cleaning stage (not oversized, not
deduplicated, text extracted), the pipeline records it as failed with
reason "Low text quality" — a failure record, not a skip — exactly when
the cleaned text (a stripped string) has length below 100, fewer than
10 distinct lowercased characters, or fewer than 10 words. -/
theorem quality_gate_rejects_iff (maxFS : Nat) (path : String)
    (f : FileOutcome) (st : PipelineStats)
    (hsize : ¬ f.size > maxFS) (hidx : f.alreadyIndexed = false)
    (hext : f.extractedText ≠ "") (hstrip : pyStrip f.cleaned = f.cleaned) :
    process_file maxFS path f st =
      (recordFailure { st with total_bytes := st.total_bytes + f.size }
        path "Low text quality", none) ↔
      (f.cleaned.length < 100 ∨
       (String.mk (f.cleaned.data.map Char.toLower)).data.dedup.length < 10 ∨
       wordCount f.cleaned < 10) := by
  rw [← validate_false_iff f.cleaned hstrip]
  unfold process_file processStages
  rw [if_neg hsize, if_neg (by simp [hidx]), if_neg hext]
  cases hv : validate_text_quality f.cleaned 100
  · rw [if_pos (by simp)]
    exact iff_of_true rfl rfl
  · rw [if_neg (by simp)]
    refine iff_of_false ?_ (by simp)
    rcases f.chunksResult with e | chunks
    all_goals dsimp only
    · intro hX
      simpa using congrArg Prod.snd hX
    · by_cases hc : chunks = []
      · rw [if_pos hc]
        intro hX
        have hlast := congrArg (fun q => q.1.failed_list.getLast?) hX
        simp only [recordFailure, List.getLast?_concat] at hlast
        have h2 : ("Chunking failed" : String) = "Low text quality" :=
          congrArg (fun o => (o.getD ("", "")).2) hlast
        exact absurd h2 (by decide)
      · rw [if_neg hc]
        rcases f.embedResult with e | embedded
        all_goals dsimp only
        · intro hX
          simpa using congrArg Prod.snd hX
        · by_cases he : embedded = []
          · rw [if_pos he]
            intro hX
            have hlast := congrArg (fun q => q.1.failed_list.getLast?) hX
            simp only [recordFailure, List.getLast?_concat] at hlast
            have h2 : ("Embedding failed" : String) = "Low text quality" :=
              congrArg (fun o => (o.getD ("", "")).2) hlast
            exact absurd h2 (by decide)
          · rw [if_neg he]
            by_cases hu : f.uploadOk
            · rw [if_pos hu]
              intro hX
              have hlen := congrArg (fun q => q.1.failed_list.length) hX
              simp [recordFailure] at hlen
            · rw [if_neg hu]
              intro hX
              have hlast := congrArg (fun q => q.1.failed_list.getLast?) hX
              simp only [recordFailure, List.getLast?_concat] at hlast
              have h2 : ("Upload failed" : String) = "Low text quality" :=
                congrArg (fun o => (o.getD ("", "")).2) hlast
              exact absurd h2 (by decide)

/-- When `process_file` raised exception `e`, the surrounding loop
iteration converts it into a `(path, e)` failure record on the
statistics object left by the partial run of `process_file`. -/
lemma processOne_error (maxFS : Nat) (st : PipelineStats)
    (pf : String × FileOutcome) (e : String)
    (h : (process_file maxFS pf.1 pf.2 st).2 = some e) :
    processOne maxFS st pf =
      recordFailure (process_file maxFS pf.1 pf.2 st).1 pf.1 e := by
  unfold processOne
  rcases hp : process_file maxFS pf.1 pf.2 st with ⟨st2, exc⟩
  rw [hp] at h
  simp only at h
  subst h
  rfl

/-- Every branch of `process_file` leaves the failure list as the input
failure list plus zero or one appended records. -/
lemma process_file_failed_list_extends (maxFS : Nat) (p : String)
    (f : FileOutcome) (st : PipelineStats) :
    ∃ t, (process_file maxFS p f st).1.failed_list = st.failed_list ++ t := by
  unfold process_file processStages
  repeat' split
  all_goals first
    | (refine ⟨[], ?_⟩; simp; done)
    | (refine ⟨[(p, "No text extracted")], ?_⟩; simp [recordFailure]; done)
    | (refine ⟨[(p, "Low text quality")], ?_⟩; simp [recordFailure]; done)
    | (refine ⟨[(p, "Chunking failed")], ?_⟩; simp [recordFailure]; done)
    | (refine ⟨[(p, "Embedding failed")], ?_⟩; simp [recordFailure]; done)
    | (refine ⟨[(p, "Upload failed")], ?_⟩; simp [recordFailure]; done)

/-- One loop iteration only ever appends to the failure list. -/
lemma processOne_failed_list_extends (maxFS : Nat) (st : PipelineStats)
    (pf : String × FileOutcome) :
    ∃ t, (processOne maxFS st pf).failed_list = st.failed_list ++ t := by
  obtain ⟨t, ht⟩ := process_file_failed_list_extends maxFS pf.1 pf.2 st
  unfold processOne
  rcases hp : process_file maxFS pf.1 pf.2 st with ⟨st2, exc⟩
  rw [hp] at ht
  dsimp only at ht
  rcases exc with _ | e
  · exact ⟨t, ht⟩
  · refine ⟨t ++ [(pf.1, e)], ?_⟩
    simp only [recordFailure]
    rw [ht, List.append_assoc]

/-- The whole run loop only ever appends to the failure list. -/
lemma runFiles_failed_list_extends (maxFS : Nat) :
    ∀ (files : List (String × FileOutcome)) (st : PipelineStats),
      ∃ t, (runFiles maxFS files st).failed_list = st.failed_list ++ t := by
  intro files
  induction files with
  | nil => exact fun st => ⟨[], by simp [runFiles]⟩
  | cons pf rest ih =>
    intro st
    obtain ⟨t1, h1⟩ := processOne_failed_list_extends maxFS st pf
    obtain ⟨t2, h2⟩ := ih (processOne maxFS st pf)
    exact ⟨t1 ++ t2, by simp [runFiles, List.foldl_cons] at h2 ⊢; rw [h2, h1, List.append_assoc]⟩

/-- C8.  When processing one file raises an exception `e` (for example a
`ChunkingError` or the oversized-fragment `ImportError` escaping
`process_file`), the run loop does not abort: the exception is caught at
the per-file boundary and converted into the failure record `(path, e)`,
which survives to the end of the run, and every file after it is still
processed by the same per-file step. -/
theorem process_directory_isolates_failures (maxFS : Nat)
    (pre post : List (String × FileOutcome)) (p : String) (f : FileOutcome)
    (st : PipelineStats) (e : String)
    (h : (process_file maxFS p f
        (runFiles maxFS pre
          { st with total_files := (pre ++ (p, f) :: post).length })).2 =
      some e) :
    process_directory maxFS (pre ++ (p, f) :: post) st =
      runFiles maxFS post
        (recordFailure
          (process_file maxFS p f
            (runFiles maxFS pre
              { st with total_files := (pre ++ (p, f) :: post).length })).1
          p e) ∧
    (p, e) ∈ (process_directory maxFS (pre ++ (p, f) :: post) st).failed_list := by
  have hsplit : process_directory maxFS (pre ++ (p, f) :: post) st =
      runFiles maxFS post
        (processOne maxFS
          (runFiles maxFS pre
            { st with total_files := (pre ++ (p, f) :: post).length })
          (p, f)) := by
    unfold process_directory runFiles
    rw [List.foldl_append]
    rfl
  have herr := processOne_error maxFS
    (runFiles maxFS pre { st with total_files := (pre ++ (p, f) :: post).length })
    (p, f) e h
  refine ⟨by rw [hsplit, herr], ?_⟩
  rw [hsplit, herr]
  obtain ⟨t, ht⟩ := runFiles_failed_list_extends maxFS post
    (recordFailure
      (process_file maxFS p f
        (runFiles maxFS pre
          { st with total_files := (pre ++ (p, f) :: post).length })).1 p e)
  rw [ht]
  simp [recordFailure]

set_option maxRecDepth 8000 in
/-- C8 witness: a run over a raising file followed by another file. -/
theorem process_directory_isolates_failures_witness :
    process_directory 100 [("bad.txt", badFile), ("huge.bin", hugeFile)]
        initStats =
      runFiles 100 [("huge.bin", hugeFile)]
        (recordFailure
          (process_file 100 "bad.txt" badFile
            (runFiles 100 [] { initStats with total_files := 2 })).1
          "bad.txt" "ChunkingError: boom") ∧
    ("bad.txt", "ChunkingError: boom") ∈
      (process_directory 100 [("bad.txt", badFile), ("huge.bin", hugeFile)]
        initStats).failed_list :=
  process_directory_isolates_failures 100 [] [("huge.bin", hugeFile)]
    "bad.txt" badFile initStats "ChunkingError: boom" (by decide)

/-- C6 witness: a short cleaned text is recorded as a quality failure. -/
theorem quality_gate_rejects_iff_witness :
    process_file 100 "w.txt"
        { size := 5, alreadyIndexed := false, extractedText := "t",
          cleaned := "hi there", chunksResult := .ok [], embedResult := .ok [],
          uploadOk := true } initStats =
      (recordFailure { initStats with total_bytes := 5 } "w.txt"
        "Low text quality", none) :=
  (quality_gate_rejects_iff 100 "w.txt"
      { size := 5, alreadyIndexed := false, extractedText := "t",
        cleaned := "hi there", chunksResult := .ok [], embedResult := .ok [],
        uploadOk := true } initStats
      (by decide) (by decide) (by decide) (by decide)).mpr
    (Or.inl (by decide))

/-- A failure record bumps the counter and the list length together. -/
lemma recordFailure_inv (st : PipelineStats) (p r : String)
    (h : statsInvariant st) : statsInvariant (recordFailure st p r) := by
  simp [statsInvariant, recordFailure] at h ⊢
  exact h

lemma process_file_inv (maxFS : Nat) (p : String) (f : FileOutcome)
    (st : PipelineStats) (h : statsInvariant st) :
    statsInvariant (process_file maxFS p f st).1 := by
  have h1 : statsInvariant
      { st with total_bytes := st.total_bytes + f.size } := h
  unfold process_file processStages
  repeat' split
  all_goals first
    | exact h1
    | exact recordFailure_inv _ _ _ h1

lemma processOne_inv (maxFS : Nat) (st : PipelineStats)
    (pf : String × FileOutcome) (h : statsInvariant st) :
    statsInvariant (processOne maxFS st pf) := by
  have hfile := process_file_inv maxFS pf.1 pf.2 st h
  unfold processOne
  rcases hp : process_file maxFS pf.1 pf.2 st with ⟨st2, exc⟩
  rw [hp] at hfile
  rcases exc with _ | e
  · exact hfile
  · exact recordFailure_inv _ _ _ hfile

lemma runFiles_inv (maxFS : Nat) :
    ∀ (files : List (String × FileOutcome)) (st : PipelineStats),
      statsInvariant st → statsInvariant (runFiles maxFS files st) := by
  intro files
  induction files with
  | nil => exact fun st h => h
  | cons pf rest ih =>
    intro st h
    exact ih (processOne maxFS st pf) (processOne_inv maxFS st pf h)

/-- C10.  The invariant `failed_files = len(failed_list)` is established
by `PipelineStats.__init__` and preserved by `process_file` (including
the path where an exception leaves partially updated statistics), by one
loop iteration of the orchestrator (which records a caught exception),
and therefore by a whole `process_directory` run. -/
theorem stats_failed_matches_list :
    statsInvariant initStats ∧
    (∀ (maxFS : Nat) (p : String) (f : FileOutcome) (st : PipelineStats),
      statsInvariant st → statsInvariant (process_file maxFS p f st).1) ∧
    (∀ (maxFS : Nat) (st : PipelineStats) (pf : String × FileOutcome),
      statsInvariant st → statsInvariant (processOne maxFS st pf)) ∧
    (∀ (maxFS : Nat) (files : List (String × FileOutcome))
      (st : PipelineStats),
      statsInvariant st → statsInvariant (process_directory maxFS files st)) :=
  ⟨rfl, process_file_inv, processOne_inv,
   fun maxFS files st h => runFiles_inv maxFS files _ h⟩

/-- C10 witness: the invariant after a run that records one failure. -/
theorem stats_failed_matches_list_witness :
    statsInvariant (process_directory 100 [("bad.txt", badFile)] initStats) :=
  stats_failed_matches_list.2.2.2 100 [("bad.txt", badFile)] initStats rfl

end Ragify
